import Mathlib

/-!
# MPoL gridding: a shallow embedding

The repository's visible source consists of test fixtures (`test/conftest.py`)
and a documentation tutorial (`docs/large-tutorials/HD143006_part_1.py`).
Both call into the gridding module (`mpol.gridding.GridCoords`,
`mpol.gridding.Gridder`) whose implementation is not among the supplied files.
Following the specification, the gridding engine is modelled here from the
spec's description; the call sites (fixture bodies, the tutorial's
pixel-center/extent computation and `Gridder` construction) are embedded
directly from the source.

Numbers are modelled as exact rationals `ℚ`; arrays as Lean lists; the
fallible calls return `Except`/`Option`.
-/

namespace MPoL

/-- The three visibility-weighting schemes accepted by `grid_visibilities`. -/
inductive Weighting where
  | uniform
  | natural
  | briggs
deriving DecidableEq, Repr

/-- Modelled from the spec: `GridCoords` (from `mpol.coordinates` /
`mpol.gridding`, absent from the supplied source) carries an angular pixel
size `cell_size` and a grid side length `npix` (spec section 3). -/
structure GridCoords where
  cell_size : ℚ
  npix : ℕ
deriving DecidableEq, Repr

/-- A single visibility sample: `(u, v)` spatial-frequency coordinates, an
inverse-variance weight, and a complex value stored as `(re, im)`
(spec section 3). -/
structure Visibility where
  u : ℚ
  v : ℚ
  weight : ℚ
  re : ℚ
  im : ℚ
deriving DecidableEq, Repr

/-- Modelled from the spec: parameters of the gridding engine that the spec
itself marks as not observable from the supplied files (section 9: the exact
grid-cell-assignment rule and the Briggs noise-normalization constant;
section 4.2: the inverse-Fourier-transform kernel and the flux-unit
normalization). The theorems below hold for every choice of these
parameters. -/
structure ModelParams where
  /-- nearest-cell assignment: maps a `(u, v)` pair to a grid-cell index -/
  bin : ℚ → ℚ → ℕ × ℕ
  /-- Briggs noise-normalization factor, as a function of `robust` -/
  briggsF2 : ℚ → ℚ
  /-- real part of the inverse-transform kernel, args: pixel `(l, m)`, cell `(j, k)` -/
  kRe : ℕ → ℕ → ℕ → ℕ → ℚ
  /-- imaginary part of the inverse-transform kernel -/
  kIm : ℕ → ℕ → ℕ → ℕ → ℚ
  /-- flux-unit normalization applied to the dirty image -/
  unitScale : String → ℚ

/-- The visibility samples that fall into grid cell `jk` under the
cell-assignment rule (spec 4.1: "bins each visibility into its nearest grid
cell by `(u,v)`"). -/
def samplesInCell (p : ModelParams) (vis : List Visibility) (jk : ℕ × ℕ) :
    List Visibility :=
  vis.filter (fun s => p.bin s.u s.v = jk)

/-- Accumulated natural (inverse-variance) weight of a list of samples. -/
def naturalWeight (ss : List Visibility) : ℚ :=
  (ss.map Visibility.weight).sum

/-- Weight-scaled sum of the real parts of a list of samples. -/
def wsumRe (ss : List Visibility) : ℚ :=
  (ss.map (fun s => s.weight * s.re)).sum

/-- Weight-scaled sum of the imaginary parts of a list of samples. -/
def wsumIm (ss : List Visibility) : ℚ :=
  (ss.map (fun s => s.weight * s.im)).sum

/-- Modelled from the spec: a cell's aggregated complex value is the weighted
average of its samples using the original inverse-variance weights
(spec 4.1, *natural*); cells with zero hits are defined as zero (spec 3).
Real part. -/
def cellValueRe (ss : List Visibility) : ℚ :=
  wsumRe ss / naturalWeight ss

/-- Weighted-average cell value, imaginary part. -/
def cellValueIm (ss : List Visibility) : ℚ :=
  wsumIm ss / naturalWeight ss

/-- Modelled from the spec: the per-cell effective weight under each
weighting scheme (spec 4.1): *natural* keeps the accumulated
inverse-variance weight; *uniform* replaces each occupied cell's weight
with 1; *briggs* combines the natural weight with a robustness-dependent
noise-normalization factor. -/
def cellWeight (p : ModelParams) (wt : Weighting) (robust : Option ℚ)
    (ss : List Visibility) : ℚ :=
  match wt with
  | Weighting.natural => naturalWeight ss
  | Weighting.uniform => if ss = [] then 0 else 1
  | Weighting.briggs =>
      naturalWeight ss / (1 + naturalWeight ss * p.briggsF2 (robust.getD 0))

/-- An `n × n` grid of rationals built from an entry function. -/
def mkGrid (n : ℕ) (f : ℕ → ℕ → ℚ) : List (List ℚ) :=
  (List.range n).map (fun j => (List.range n).map (fun k => f j k))

/-- Entry lookup in a grid, with default `0` outside the grid. -/
def entry (xss : List (List ℚ)) (j k : ℕ) : ℚ :=
  (xss.getD j []).getD k 0

/-- The result of gridding: the weighting choice it was produced with and the
three `npix × npix` grids (aggregated real parts, imaginary parts, and
effective weights). -/
structure GriddedGrid where
  weighting : Weighting
  robust : Option ℚ
  re : List (List ℚ)
  im : List (List ℚ)
  w : List (List ℚ)

/-- Modelled from the spec: the visibility-to-grid averaging (spec 4.1) —
every cell of the `npix × npix` spatial-frequency grid receives the weighted
average of the samples binned into it, plus the scheme-dependent effective
weight. -/
def computeGrid (p : ModelParams) (c : GridCoords) (vis : List Visibility)
    (wt : Weighting) (robust : Option ℚ) : GriddedGrid :=
  GriddedGrid.mk wt robust
    (mkGrid c.npix (fun j k => cellValueRe (samplesInCell p vis (j, k))))
    (mkGrid c.npix (fun j k => cellValueIm (samplesInCell p vis (j, k))))
    (mkGrid c.npix (fun j k => cellWeight p wt robust (samplesInCell p vis (j, k))))

/-- Modelled from the spec: validation of the `robust` argument
(spec 4.1: "Fails if `robust` is omitted for `briggs` weighting, or out of
its accepted range"; the accepted range is `[-2, 2]`, spec 4.1 *briggs*).
`uniform` and `natural` accept any (or no) `robust` value. -/
def robustValid (wt : Weighting) (robust : Option ℚ) : Bool :=
  match wt, robust with
  | Weighting.briggs, some x => decide (-2 ≤ x) && decide (x ≤ 2)
  | Weighting.briggs, none => false
  | _, _ => true

/-- The `Gridder` object's state: its construction-time inputs together with
the optional internal gridded state (spec 4.2: state machine
`uninitialized → gridded(weighting)`). -/
structure Gridder where
  params : ModelParams
  coords : GridCoords
  vis : List Visibility
  gridded : Option GriddedGrid

/-- Construction of a `Gridder`: stores the coordinates and the visibility
arrays; the gridded state starts uninitialized. -/
def mkGridder (p : ModelParams) (c : GridCoords) (vis : List Visibility) :
    Gridder :=
  Gridder.mk p c vis none

/-- Modelled from the spec: `Gridder.grid_visibilities(weighting, robust)`
(spec 4.1) — validates `robust`, bins and averages the visibilities onto the
grid, and overwrites the internal gridded state. -/
def gridVisibilities (g : Gridder) (wt : Weighting) (robust : Option ℚ) :
    Except String Gridder :=
  if robustValid wt robust then
    Except.ok (Gridder.mk g.params g.coords g.vis
      (some (computeGrid g.params g.coords g.vis wt robust)))
  else
    Except.error ("robust must be provided in the range [-2, 2] for briggs weighting")

/-- One pixel of the dirty image: inverse transform of the complex grid,
scaled by the flux-unit normalization (spec 4.2). -/
def imagePixel (p : ModelParams) (n : ℕ) (gg : GriddedGrid) (unit : String)
    (l m : ℕ) : ℚ :=
  p.unitScale unit *
    ((List.range n).map (fun j =>
      ((List.range n).map (fun k =>
        entry gg.re j k * p.kRe l m j k - entry gg.im j k * p.kIm l m j k)).sum)).sum

/-- One pixel of the dirty beam: inverse transform of the real weight grid
(spec 4.2). -/
def beamPixel (p : ModelParams) (n : ℕ) (gg : GriddedGrid) (l m : ℕ) : ℚ :=
  ((List.range n).map (fun j =>
    ((List.range n).map (fun k => entry gg.w j k * p.kRe l m j k)).sum)).sum

/-- The dirty image as an `npix × npix` array. -/
def renderImage (p : ModelParams) (n : ℕ) (gg : GriddedGrid) (unit : String) :
    List (List ℚ) :=
  mkGrid n (fun l m => imagePixel p n gg unit l m)

/-- The dirty beam as an `npix × npix` array. -/
def renderBeam (p : ModelParams) (n : ℕ) (gg : GriddedGrid) : List (List ℚ) :=
  mkGrid n (fun l m => beamPixel p n gg l m)

/-- The grid used by `get_dirty_image`: the existing internal gridded state
when it matches the requested weighting arguments, otherwise a fresh
re-gridding (spec 4.2: "re-grids (if needed)"). -/
def currentGrid (g : Gridder) (wt : Weighting) (robust : Option ℚ) :
    GriddedGrid :=
  match g.gridded with
  | some gg =>
      if gg.weighting = wt ∧ gg.robust = robust then gg
      else computeGrid g.params g.coords g.vis wt robust
  | none => computeGrid g.params g.coords g.vis wt robust

/-- Modelled from the spec: `Gridder.get_dirty_image(weighting, robust, unit)`
(spec 4.2) — validates `robust`, re-grids if needed, applies the inverse
transform to the complex grid (image) and to the weight grid (beam), scales
by the flux unit, and returns `(image, beam)` along with the updated
gridder state. -/
def getDirtyImage (g : Gridder) (wt : Weighting) (robust : Option ℚ)
    (unit : String) :
    Except String ((List (List ℚ) × List (List ℚ)) × Gridder) :=
  if robustValid wt robust then
    Except.ok ((renderImage g.params g.coords.npix (currentGrid g wt robust) unit,
                renderBeam g.params g.coords.npix (currentGrid g wt robust)),
               Gridder.mk g.params g.coords g.vis (some (currentGrid g wt robust)))
  else
    Except.error ("robust must be provided in the range [-2, 2] for briggs weighting")

/-- The exported dataset: gridded complex values and per-cell weights on the
same grid indexing (spec 4.2, `to_pytorch_dataset`). -/
structure PyDataset where
  re : List (List ℚ)
  im : List (List ℚ)
  w : List (List ℚ)

/-- Modelled from the spec: `Gridder.to_pytorch_dataset()` exports the
gridded visibility grid (spec 4.2); there is nothing to export from the
uninitialized state. -/
def toPytorchDataset (g : Gridder) : Option PyDataset :=
  match g.gridded with
  | some gg => some (PyDataset.mk gg.re gg.im gg.w)
  | none => none

/-! ## Call-site embeddings (from the supplied source) -/

/-- One record of an externally extracted visibility file (`.npz`): the values
as stored on disk, before any caller-side sign handling. -/
structure RawVis where
  uu : ℚ
  vv : ℚ
  weight : ℚ
  dataRe : ℚ
  dataIm : ℚ
deriving DecidableEq, Repr

/-- Embeds `test/conftest.py` lines 29–33 (and identically lines 45–50,
65–69): the fixtures pass `data_im = -d["data_im"]  # CASA convention`, so
the visibility handed to the `Gridder` carries the negated stored imaginary
part. -/
def conftestVis (r : RawVis) : Visibility :=
  Visibility.mk r.uu r.vv r.weight r.dataRe (-r.dataIm)

/-- Embeds `docs/large-tutorials/HD143006_part_1.py` lines 100–104 and
138–146: the tutorial loads `data = d["data"]` and constructs the `Gridder`
with `data_re=data.real, data_im=data.imag` — the stored imaginary part is
passed through unnegated. -/
def tutorialVis (r : RawVis) : Visibility :=
  Visibility.mk r.uu r.vv r.weight r.dataRe r.dataIm

/-- Embeds `test/conftest.py` lines 43–57 (`dataset` fixture): build a
`Gridder` from all channels of the mock data (imaginary parts negated per
the CASA convention), call `grid_visibilities(weighting="uniform")`, then
`to_pytorch_dataset()`. -/
def datasetFixture (p : ModelParams) (c : GridCoords)
    (raw : List (List RawVis)) : Except String (Option PyDataset) :=
  let vis := (raw.map (fun ch => ch.map conftestVis)).flatten
  (gridVisibilities (mkGridder p c vis) Weighting.uniform none).map toPytorchDataset

/-- Embeds `test/conftest.py` lines 60–76 (`dataset_cont` fixture): same as
`dataset` but restricted to channel 4 of the mock data. -/
def datasetContFixture (p : ModelParams) (c : GridCoords)
    (raw : List (List RawVis)) : Except String (Option PyDataset) :=
  let vis := (raw.getD 4 []).map conftestVis
  (gridVisibilities (mkGridder p c vis) Weighting.uniform none).map toPytorchDataset

/-- Embeds `docs/large-tutorials/HD143006_part_1.py` line 64: the pixel-center
coordinate `RA[k] = (k - nx/2) * CDELT1`. -/
def raCenter (nx : ℕ) (cdelt : ℚ) (k : ℕ) : ℚ :=
  ((k : ℚ) - (nx : ℚ) / 2) * cdelt

/-- Embeds `docs/large-tutorials/HD143006_part_1.py` lines 68–73: the imshow
extent extends the first pixel center by an extra half pixel on the left. -/
def extLeft (nx : ℕ) (cdelt : ℚ) : ℚ :=
  raCenter nx cdelt 0 - cdelt / 2

/-- Embeds `docs/large-tutorials/HD143006_part_1.py` lines 68–73: the imshow
extent extends the last pixel center (`RA[-1]`, index `nx - 1`) by an extra
half pixel on the right. -/
def extRight (nx : ℕ) (cdelt : ℚ) : ℚ :=
  raCenter nx cdelt (nx - 1) + cdelt / 2

/-- Modelled from the spec: the image display extent that `GridCoords`
derives (spec 4.1, `img_ext` in the tutorial at line 164; the `GridCoords`
implementation is absent from the supplied source). The pixel-center
convention and the half-pixel padding are taken from the in-source tutorial
computation (`raCenter`, `extLeft`, `extRight`). -/
def imgExt (c : GridCoords) : ℚ × ℚ :=
  (extLeft c.npix c.cell_size, extRight c.npix c.cell_size)

/-! ## Operation sequences over a `Gridder` -/

/-- One public operation on a constructed `Gridder`. -/
inductive GOp where
  | gridOp (wt : Weighting) (robust : Option ℚ)
  | dirtyOp (wt : Weighting) (robust : Option ℚ) (unit : String)
  | exportOp

/-- Applies one operation to the gridder state (a failed call leaves the
state unchanged; `to_pytorch_dataset` reads but does not modify state). -/
def applyOp (g : Gridder) : GOp → Gridder
  | GOp.gridOp wt robust =>
      match gridVisibilities g wt robust with
      | Except.ok g' => g'
      | Except.error _ => g
  | GOp.dirtyOp wt robust unit =>
      match getDirtyImage g wt robust unit with
      | Except.ok (_, g') => g'
      | Except.error _ => g
  | GOp.exportOp => g

/-- Runs a sequence of operations on a gridder state. -/
def runOps (g : Gridder) (ops : List GOp) : Gridder :=
  ops.foldl applyOp g

/-! ## Concrete instances for witnesses -/

/-- A concrete choice of the unobservable model parameters, used only to
exhibit witnesses: every sample lands in cell `(0, 0)`, the transform kernel
is the constant `1` (real part) and `0` (imaginary part), the flux-unit
scale is `1`. -/
def p₀ : ModelParams :=
  ModelParams.mk (fun _ _ => (0, 0)) (fun _ => 0) (fun _ _ _ _ => 1)
    (fun _ _ _ _ => 0) (fun _ => 1)

/-- A concrete 2 × 2 grid geometry. -/
def c₀ : GridCoords := GridCoords.mk 1 2

/-- A concrete pair of visibility samples. -/
def vis₀ : List Visibility :=
  [Visibility.mk 0 0 5 3 4, Visibility.mk 0 0 1 (-2) 6]

/-- A concrete single-sample visibility list. -/
def vis₁ : List Visibility := [Visibility.mk 0 0 5 3 4]

/-- The gridder built from the concrete inputs, still uninitialized. -/
def g₀ : Gridder := mkGridder p₀ c₀ vis₀

/-- The gridder built from the single-sample input, still uninitialized. -/
def g₁ : Gridder := mkGridder p₀ c₀ vis₁

/-- The flux unit string used at the tutorial call site. -/
def unit₀ : String := "Jy/arcsec^2"

/-! ## Helper lemmas -/

theorem length_mkGrid (n : ℕ) (f : ℕ → ℕ → ℚ) : (mkGrid n f).length = n := by
  simp [mkGrid]

theorem length_of_mem_mkGrid {n : ℕ} {f : ℕ → ℕ → ℚ} {row : List ℚ}
    (h : row ∈ mkGrid n f) : row.length = n := by
  simp only [mkGrid, List.mem_map, List.mem_range] at h
  obtain ⟨j, _, rfl⟩ := h
  simp

theorem entry_mkGrid {n j k : ℕ} (f : ℕ → ℕ → ℚ) (hj : j < n) (hk : k < n) :
    entry (mkGrid n f) j k = f j k := by
  have hj' : j < (mkGrid n f).length := by rw [length_mkGrid]; exact hj
  have hrow : (mkGrid n f).getD j [] = (List.range n).map (fun k => f j k) := by
    rw [List.getD_eq_getElem _ _ hj']
    simp [mkGrid]
  unfold entry
  rw [hrow, List.getD_eq_getElem _ _ (by simpa using hk)]
  simp

theorem robustValid_uniform (robust : Option ℚ) :
    robustValid Weighting.uniform robust = true := by
  cases robust <;> rfl

theorem robustValid_natural (robust : Option ℚ) :
    robustValid Weighting.natural robust = true := by
  cases robust <;> rfl

theorem gridVisibilities_eq_ok (g : Gridder) {wt : Weighting} {robust : Option ℚ}
    (h : robustValid wt robust = true) :
    gridVisibilities g wt robust =
      Except.ok (Gridder.mk g.params g.coords g.vis
        (some (computeGrid g.params g.coords g.vis wt robust))) := by
  unfold gridVisibilities
  rw [if_pos h]

theorem getDirtyImage_eq_ok (g : Gridder) {wt : Weighting} {robust : Option ℚ}
    (unit : String) (h : robustValid wt robust = true) :
    getDirtyImage g wt robust unit =
      Except.ok ((renderImage g.params g.coords.npix (currentGrid g wt robust) unit,
                  renderBeam g.params g.coords.npix (currentGrid g wt robust)),
                 Gridder.mk g.params g.coords g.vis (some (currentGrid g wt robust))) := by
  unfold getDirtyImage
  rw [if_pos h]

theorem gridVisibilities_vis {g g' : Gridder} {wt : Weighting} {robust : Option ℚ}
    (h : gridVisibilities g wt robust = Except.ok g') : g'.vis = g.vis := by
  unfold gridVisibilities at h
  split at h
  · cases h
    rfl
  · cases h

theorem getDirtyImage_vis {g g' : Gridder} {wt : Weighting} {robust : Option ℚ}
    {unit : String} {out : List (List ℚ) × List (List ℚ)}
    (h : getDirtyImage g wt robust unit = Except.ok (out, g')) : g'.vis = g.vis := by
  unfold getDirtyImage at h
  split at h
  · cases h
    rfl
  · cases h

theorem computeGrid_weighting (p : ModelParams) (c : GridCoords)
    (vis : List Visibility) (wt : Weighting) (robust : Option ℚ) :
    (computeGrid p c vis wt robust).weighting = wt := rfl

theorem computeGrid_robust (p : ModelParams) (c : GridCoords)
    (vis : List Visibility) (wt : Weighting) (robust : Option ℚ) :
    (computeGrid p c vis wt robust).robust = robust := rfl

theorem currentGrid_args (g : Gridder) (wt : Weighting) (robust : Option ℚ) :
    (currentGrid g wt robust).weighting = wt ∧
    (currentGrid g wt robust).robust = robust := by
  unfold currentGrid
  cases g.gridded with
  | none => exact ⟨rfl, rfl⟩
  | some gg =>
      by_cases h : gg.weighting = wt ∧ gg.robust = robust
      · simp only [if_pos h]
        exact h
      · simp only [if_neg h]
        exact ⟨rfl, rfl⟩

theorem currentGrid_set (p : ModelParams) (c : GridCoords) (vis : List Visibility)
    (gg : GriddedGrid) (wt : Weighting) (robust : Option ℚ)
    (hw : gg.weighting = wt) (hr : gg.robust = robust) :
    currentGrid (Gridder.mk p c vis (some gg)) wt robust = gg := by
  unfold currentGrid
  simp [hw, hr]

theorem applyOp_vis (g : Gridder) (op : GOp) : (applyOp g op).vis = g.vis := by
  cases op with
  | gridOp wt robust =>
      cases hres : gridVisibilities g wt robust with
      | ok g' =>
          simp only [applyOp, hres]
          exact gridVisibilities_vis hres
      | error e => simp [applyOp, hres]
  | dirtyOp wt robust unit =>
      cases hres : getDirtyImage g wt robust unit with
      | ok pr =>
          obtain ⟨out, g'⟩ := pr
          simp only [applyOp, hres]
          exact getDirtyImage_vis hres
      | error e => simp [applyOp, hres]
  | exportOp => rfl

theorem cellValueRe_single (s : Visibility) (hw : s.weight ≠ 0) :
    cellValueRe [s] = s.re := by
  simp [cellValueRe, wsumRe, naturalWeight]
  rw [mul_comm, mul_div_assoc, div_self hw, mul_one]

theorem cellValueIm_single (s : Visibility) (hw : s.weight ≠ 0) :
    cellValueIm [s] = s.im := by
  simp [cellValueIm, wsumIm, naturalWeight]
  rw [mul_comm, mul_div_assoc, div_self hw, mul_one]

theorem naturalWeight_single (s : Visibility) : naturalWeight [s] = s.weight := by
  simp [naturalWeight]

/-! ## Claim theorems -/

/-- C1: for every run of `grid_visibilities` with `weighting="uniform"`,
every grid cell that receives at least one visibility sample ends with
effective weight exactly 1, regardless of the number of contributing samples
or the magnitudes of their original inverse-variance weights. -/
theorem uniform_occupied_cell_weight_one (p : ModelParams) (c : GridCoords)
    (vis : List Visibility) (robust : Option ℚ) (j k : ℕ)
    (hj : j < c.npix) (hk : k < c.npix)
    (hocc : samplesInCell p vis (j, k) ≠ []) :
    ∃ g', gridVisibilities (mkGridder p c vis) Weighting.uniform robust = Except.ok g' ∧
      ∃ gg, g'.gridded = some gg ∧ entry gg.w j k = 1 := by
  refine ⟨_, gridVisibilities_eq_ok _ (robustValid_uniform robust), _, rfl, ?_⟩
  show entry (computeGrid p c vis Weighting.uniform robust).w j k = 1
  have hw : (computeGrid p c vis Weighting.uniform robust).w =
      mkGrid c.npix
        (fun j k => cellWeight p Weighting.uniform robust (samplesInCell p vis (j, k))) := rfl
  rw [hw, entry_mkGrid _ hj hk]
  simp [cellWeight, hocc]

/-- C1 witness: a concrete uniform-weighting run in which cell `(0, 0)`
receives two samples of weights 5 and 1 and ends with effective weight 1. -/
theorem uniform_occupied_cell_weight_one_witness :
    ∃ g', gridVisibilities (mkGridder p₀ c₀ vis₀) Weighting.uniform none = Except.ok g' ∧
      ∃ gg, g'.gridded = some gg ∧ entry gg.w 0 0 = 1 :=
  uniform_occupied_cell_weight_one p₀ c₀ vis₀ none 0 0 (by decide) (by decide) (by decide)

/-- C2: for every run of `grid_visibilities` with `weighting="natural"`, a
grid cell into which exactly one visibility sample (of nonzero
inverse-variance weight) falls holds, after gridding, exactly that sample's
complex value and exactly that sample's original weight. -/
theorem natural_single_sample_exact (p : ModelParams) (c : GridCoords)
    (vis : List Visibility) (robust : Option ℚ) (j k : ℕ) (s : Visibility)
    (hj : j < c.npix) (hk : k < c.npix)
    (hcell : samplesInCell p vis (j, k) = [s]) (hw : 0 < s.weight) :
    ∃ g', gridVisibilities (mkGridder p c vis) Weighting.natural robust = Except.ok g' ∧
      ∃ gg, g'.gridded = some gg ∧
        entry gg.re j k = s.re ∧ entry gg.im j k = s.im ∧ entry gg.w j k = s.weight := by
  refine ⟨_, gridVisibilities_eq_ok _ (robustValid_natural robust), _, rfl, ?_, ?_, ?_⟩
  · show entry (computeGrid p c vis Weighting.natural robust).re j k = s.re
    have hre : (computeGrid p c vis Weighting.natural robust).re =
        mkGrid c.npix (fun j k => cellValueRe (samplesInCell p vis (j, k))) := rfl
    rw [hre, entry_mkGrid _ hj hk, hcell]
    exact cellValueRe_single s hw.ne'
  · show entry (computeGrid p c vis Weighting.natural robust).im j k = s.im
    have him : (computeGrid p c vis Weighting.natural robust).im =
        mkGrid c.npix (fun j k => cellValueIm (samplesInCell p vis (j, k))) := rfl
    rw [him, entry_mkGrid _ hj hk, hcell]
    exact cellValueIm_single s hw.ne'
  · show entry (computeGrid p c vis Weighting.natural robust).w j k = s.weight
    have hwg : (computeGrid p c vis Weighting.natural robust).w =
        mkGrid c.npix
          (fun j k => cellWeight p Weighting.natural robust (samplesInCell p vis (j, k))) := rfl
    rw [hwg, entry_mkGrid _ hj hk, hcell]
    simp [cellWeight, naturalWeight_single]

/-- C2 witness: a concrete natural-weighting run with a single sample
`(re, im, weight) = (3, 4, 5)` in cell `(0, 0)`, reproduced exactly. -/
theorem natural_single_sample_exact_witness :
    ∃ g', gridVisibilities (mkGridder p₀ c₀ vis₁) Weighting.natural none = Except.ok g' ∧
      ∃ gg, g'.gridded = some gg ∧
        entry gg.re 0 0 = (Visibility.mk 0 0 5 3 4).re ∧
        entry gg.im 0 0 = (Visibility.mk 0 0 5 3 4).im ∧
        entry gg.w 0 0 = (Visibility.mk 0 0 5 3 4).weight :=
  natural_single_sample_exact p₀ c₀ vis₁ none 0 0 (Visibility.mk 0 0 5 3 4)
    (by decide) (by decide) (by decide) (by decide)

/-- C3: every valid call to `get_dirty_image(weighting, robust, unit)` on a
`Gridder` built with grid side length `npix` returns a pair `(image, beam)`
of 2D arrays, each of shape exactly `(npix, npix)`. -/
theorem get_dirty_image_shape (g : Gridder) (wt : Weighting) (robust : Option ℚ)
    (unit : String) (h : robustValid wt robust = true) :
    ∃ img beam g', getDirtyImage g wt robust unit = Except.ok ((img, beam), g') ∧
      img.length = g.coords.npix ∧ beam.length = g.coords.npix ∧
      (∀ row ∈ img, row.length = g.coords.npix) ∧
      (∀ row ∈ beam, row.length = g.coords.npix) := by
  refine ⟨_, _, _, getDirtyImage_eq_ok g unit h, ?_, ?_, ?_, ?_⟩
  · exact length_mkGrid _ _
  · exact length_mkGrid _ _
  · intro row hrow
    exact length_of_mem_mkGrid hrow
  · intro row hrow
    exact length_of_mem_mkGrid hrow

/-- C3 witness: a concrete `get_dirty_image` call on the 2 × 2 grid returns
2 × 2 image and beam arrays. -/
theorem get_dirty_image_shape_witness :
    ∃ img beam g',
      getDirtyImage g₀ Weighting.uniform none unit₀ = Except.ok ((img, beam), g') ∧
      img.length = g₀.coords.npix ∧ beam.length = g₀.coords.npix ∧
      (∀ row ∈ img, row.length = g₀.coords.npix) ∧
      (∀ row ∈ beam, row.length = g₀.coords.npix) :=
  get_dirty_image_shape g₀ Weighting.uniform none unit₀ rfl

/-- C4: `grid_visibilities` and `get_dirty_image` fail when
`weighting="briggs"` and `robust` is omitted or outside `[-2, 2]`, and both
succeed without a `robust` value for `"uniform"` and `"natural"`. -/
theorem robust_argument_validation (g : Gridder) (unit : String) :
    (∃ e, gridVisibilities g Weighting.briggs none = Except.error e) ∧
    (∃ e, getDirtyImage g Weighting.briggs none unit = Except.error e) ∧
    (∀ r : ℚ, r < -2 ∨ 2 < r →
      (∃ e, gridVisibilities g Weighting.briggs (some r) = Except.error e) ∧
      (∃ e, getDirtyImage g Weighting.briggs (some r) unit = Except.error e)) ∧
    (∃ g', gridVisibilities g Weighting.uniform none = Except.ok g') ∧
    (∃ g', gridVisibilities g Weighting.natural none = Except.ok g') ∧
    (∃ out, getDirtyImage g Weighting.uniform none unit = Except.ok out) ∧
    (∃ out, getDirtyImage g Weighting.natural none unit = Except.ok out) := by
  have hnone : robustValid Weighting.briggs none = false := rfl
  refine ⟨?_, ?_, ?_, ?_, ?_, ?_, ?_⟩
  · exact ⟨_, by unfold gridVisibilities; rw [if_neg (by simp [hnone])]⟩
  · exact ⟨_, by unfold getDirtyImage; rw [if_neg (by simp [hnone])]⟩
  · intro r hr
    have hfalse : robustValid Weighting.briggs (some r) = false := by
      rcases hr with h | h
      · have hnl : ¬ (-2 ≤ r) := by linarith
        simp [robustValid, hnl]
      · have hnl : ¬ (r ≤ 2) := by linarith
        simp [robustValid, hnl]
    constructor
    · exact ⟨_, by unfold gridVisibilities; rw [if_neg (by simp [hfalse])]⟩
    · exact ⟨_, by unfold getDirtyImage; rw [if_neg (by simp [hfalse])]⟩
  · exact ⟨_, gridVisibilities_eq_ok g (robustValid_uniform none)⟩
  · exact ⟨_, gridVisibilities_eq_ok g (robustValid_natural none)⟩
  · exact ⟨_, getDirtyImage_eq_ok g unit (robustValid_uniform none)⟩
  · exact ⟨_, getDirtyImage_eq_ok g unit (robustValid_natural none)⟩

/-- C4 witness: on the concrete gridder, `briggs` with the out-of-range
`robust = 3` is rejected by both calls. -/
theorem robust_argument_validation_witness :
    (∃ e, gridVisibilities g₀ Weighting.briggs (some 3) = Except.error e) ∧
    (∃ e, getDirtyImage g₀ Weighting.briggs (some 3) unit₀ = Except.error e) :=
  (robust_argument_validation g₀ unit₀).2.2.1 3 (Or.inr (by norm_num))

/-- C5 counterexample: at the tutorial's `Gridder` construction site
(`HD143006_part_1.py` lines 138–146) the imaginary component passed in is
`data.imag` itself, not its negation: for a stored imaginary value 1 the
passed value is 1 ≠ -1. -/
theorem tutorial_site_unnegated_im_counterexample :
    ¬ ((tutorialVis (RawVis.mk 0 0 1 0 1)).im = -(RawVis.mk 0 0 1 0 1).dataIm) := by
  decide

/-- C5 amended: the conftest fixture sites negate the stored imaginary values
before construction (`data_im = -d["data_im"]`, the CASA-convention
correction), while the tutorial construction site passes the stored
imaginary values (`data.imag`) through unnegated. -/
theorem data_im_sign_handling_by_site (r : RawVis) :
    (conftestVis r).im = -r.dataIm ∧ (tutorialVis r).im = r.dataIm :=
  ⟨rfl, rfl⟩

/-- C6 counterexample: for `cell_size = 1 > 0` and `npix = 2 > 0` the derived
display extent is `(-3/2, 1/2)`, which is not symmetric about zero. -/
theorem img_ext_not_symmetric_counterexample :
    ¬ ((imgExt (GridCoords.mk 1 2)).2 = -(imgExt (GridCoords.mk 1 2)).1) := by
  norm_num [imgExt, extLeft, extRight, raCenter]

/-- C6 amended: for every `GridCoords` with `cell_size > 0` and `npix > 0`,
the display extent extends exactly half a pixel beyond the first and last
pixel centers and spans a total width of `npix * cell_size`, but it is
centred at `-cell_size / 2` rather than zero (its endpoints sum to
`-cell_size ≠ 0`), reflecting the `(k - npix/2) * cell_size` pixel-center
convention. -/
theorem img_ext_half_pixel_padding (c : GridCoords)
    (hcs : 0 < c.cell_size) (hn : 0 < c.npix) :
    (imgExt c).1 = raCenter c.npix c.cell_size 0 - c.cell_size / 2 ∧
    (imgExt c).2 = raCenter c.npix c.cell_size (c.npix - 1) + c.cell_size / 2 ∧
    (imgExt c).2 - (imgExt c).1 = (c.npix : ℚ) * c.cell_size ∧
    (imgExt c).1 + (imgExt c).2 = -c.cell_size ∧
    (imgExt c).1 + (imgExt c).2 ≠ 0 := by
  have h1 : (1 : ℕ) ≤ c.npix := hn
  have hcast : ((c.npix - 1 : ℕ) : ℚ) = (c.npix : ℚ) - 1 := by
    rw [Nat.cast_sub h1, Nat.cast_one]
  have hsum : (imgExt c).1 + (imgExt c).2 = -c.cell_size := by
    unfold imgExt extLeft extRight raCenter
    rw [hcast]
    ring
  refine ⟨rfl, rfl, ?_, hsum, ?_⟩
  · unfold imgExt extLeft extRight raCenter
    rw [hcast]
    ring
  · rw [hsum]
    exact neg_ne_zero.mpr hcs.ne'

/-- C6 witness: the padding and centring facts evaluated on the concrete
geometry `cell_size = 1`, `npix = 2`. -/
theorem img_ext_half_pixel_padding_witness :
    (imgExt (GridCoords.mk 1 2)).1 =
        raCenter (GridCoords.mk 1 2).npix (GridCoords.mk 1 2).cell_size 0 -
          (GridCoords.mk 1 2).cell_size / 2 ∧
    (imgExt (GridCoords.mk 1 2)).2 =
        raCenter (GridCoords.mk 1 2).npix (GridCoords.mk 1 2).cell_size
            ((GridCoords.mk 1 2).npix - 1) +
          (GridCoords.mk 1 2).cell_size / 2 ∧
    (imgExt (GridCoords.mk 1 2)).2 - (imgExt (GridCoords.mk 1 2)).1 =
        ((GridCoords.mk 1 2).npix : ℚ) * (GridCoords.mk 1 2).cell_size ∧
    (imgExt (GridCoords.mk 1 2)).1 + (imgExt (GridCoords.mk 1 2)).2 =
        -(GridCoords.mk 1 2).cell_size ∧
    (imgExt (GridCoords.mk 1 2)).1 + (imgExt (GridCoords.mk 1 2)).2 ≠ 0 :=
  img_ext_half_pixel_padding (GridCoords.mk 1 2) (by decide) (by decide)

/-- C7: `get_dirty_image` called on a `Gridder` in the uninitialized state
succeeds by performing the gridding itself before the inverse transform, and
the resulting state is gridded with the requested weighting: the state
machine `uninitialized → gridded(weighting)` is traversed internally. -/
theorem dirty_image_from_uninitialized (g : Gridder) (wt : Weighting)
    (robust : Option ℚ) (unit : String)
    (hinit : g.gridded = none) (hv : robustValid wt robust = true) :
    ∃ img beam g', getDirtyImage g wt robust unit = Except.ok ((img, beam), g') ∧
      g'.gridded = some (computeGrid g.params g.coords g.vis wt robust) ∧
      (computeGrid g.params g.coords g.vis wt robust).weighting = wt := by
  have hcg : currentGrid g wt robust = computeGrid g.params g.coords g.vis wt robust := by
    unfold currentGrid
    rw [hinit]
  refine ⟨_, _, _, getDirtyImage_eq_ok g unit hv, ?_, rfl⟩
  show some (currentGrid g wt robust) = some (computeGrid g.params g.coords g.vis wt robust)
  rw [hcg]

/-- C7 witness: a concrete `get_dirty_image` call on a freshly constructed
(uninitialized) gridder succeeds and leaves it gridded with `natural`
weighting. -/
theorem dirty_image_from_uninitialized_witness :
    ∃ img beam g',
      getDirtyImage g₀ Weighting.natural none unit₀ = Except.ok ((img, beam), g') ∧
      g'.gridded = some (computeGrid g₀.params g₀.coords g₀.vis Weighting.natural none) ∧
      (computeGrid g₀.params g₀.coords g₀.vis Weighting.natural none).weighting =
        Weighting.natural :=
  dirty_image_from_uninitialized g₀ Weighting.natural none unit₀ rfl rfl

/-- C8: calling `get_dirty_image` twice in succession with identical
`weighting`, `robust` and `unit` arguments yields identical `(image, beam)`
outputs — the second call observes the gridded state left by the first and
returns exactly the same result (and state). -/
theorem dirty_image_idempotent (g : Gridder) (wt : Weighting) (robust : Option ℚ)
    (unit : String) (out : List (List ℚ) × List (List ℚ)) (gNext : Gridder)
    (h : getDirtyImage g wt robust unit = Except.ok (out, gNext)) :
    getDirtyImage gNext wt robust unit = Except.ok (out, gNext) := by
  by_cases hv : robustValid wt robust = true
  · rw [getDirtyImage_eq_ok g unit hv] at h
    simp only [Except.ok.injEq, Prod.mk.injEq] at h
    obtain ⟨h1, h2⟩ := h
    subst h2
    subst h1
    rw [getDirtyImage_eq_ok _ unit hv]
    rw [currentGrid_set _ _ _ _ _ _ (currentGrid_args g wt robust).1
      (currentGrid_args g wt robust).2]
  · unfold getDirtyImage at h
    rw [if_neg hv] at h
    exact Except.noConfusion h

/-- C8 witness: a concrete repeated `get_dirty_image` call with identical
arguments returns the identical output pair and state. -/
theorem dirty_image_idempotent_witness :
    ∃ out gNext,
      getDirtyImage g₀ Weighting.uniform none unit₀ = Except.ok (out, gNext) ∧
      getDirtyImage gNext Weighting.uniform none unit₀ = Except.ok (out, gNext) := by
  refine ⟨_, _, getDirtyImage_eq_ok g₀ unit₀ rfl, ?_⟩
  exact dirty_image_idempotent g₀ Weighting.uniform none unit₀ _ _
    (getDirtyImage_eq_ok g₀ unit₀ rfl)

/-- C9: the visibility data handed to the `Gridder` at construction time is
never modified by any subsequent sequence of `grid_visibilities`,
`get_dirty_image` or `to_pytorch_dataset` calls: after any sequence of these
operations the stored samples equal their construction-time values. -/
theorem visibilities_never_mutated (p : ModelParams) (c : GridCoords)
    (vis : List Visibility) (ops : List GOp) :
    (runOps (mkGridder p c vis) ops).vis = vis := by
  suffices h : ∀ g : Gridder, (runOps g ops).vis = g.vis from h (mkGridder p c vis)
  induction ops with
  | nil =>
      intro g
      rfl
  | cons op rest ih =>
      intro g
      show (runOps (applyOp g op) rest).vis = g.vis
      rw [ih (applyOp g op), applyOp_vis]

/-- C10: at both source call sites of `to_pytorch_dataset` (the `dataset`
and `dataset_cont` fixtures in `test/conftest.py`), the export is performed
only after `grid_visibilities(weighting="uniform")` has run on the same
`Gridder`: the state at export time is gridded with the explicitly chosen
uniform weighting and the export succeeds. -/
theorem export_only_after_gridding (p : ModelParams) (c : GridCoords)
    (raw : List (List RawVis)) :
    (∃ g', gridVisibilities
        (mkGridder p c ((raw.map (fun ch => ch.map conftestVis)).flatten))
        Weighting.uniform none = Except.ok g' ∧
      (∃ gg, g'.gridded = some gg ∧ gg.weighting = Weighting.uniform) ∧
      datasetFixture p c raw = Except.ok (toPytorchDataset g') ∧
      (toPytorchDataset g').isSome = true) ∧
    (∃ g', gridVisibilities (mkGridder p c ((raw.getD 4 []).map conftestVis))
        Weighting.uniform none = Except.ok g' ∧
      (∃ gg, g'.gridded = some gg ∧ gg.weighting = Weighting.uniform) ∧
      datasetContFixture p c raw = Except.ok (toPytorchDataset g') ∧
      (toPytorchDataset g').isSome = true) := by
  constructor
  · have hok := gridVisibilities_eq_ok
      (mkGridder p c ((raw.map (fun ch => ch.map conftestVis)).flatten))
      (robustValid_uniform none)
    refine ⟨_, hok, ⟨_, rfl, rfl⟩, ?_, rfl⟩
    show (gridVisibilities
        (mkGridder p c ((raw.map (fun ch => ch.map conftestVis)).flatten))
        Weighting.uniform none).map toPytorchDataset = _
    rw [hok]
    rfl
  · have hok := gridVisibilities_eq_ok
      (mkGridder p c ((raw.getD 4 []).map conftestVis))
      (robustValid_uniform none)
    refine ⟨_, hok, ⟨_, rfl, rfl⟩, ?_, rfl⟩
    show (gridVisibilities (mkGridder p c ((raw.getD 4 []).map conftestVis))
        Weighting.uniform none).map toPytorchDataset = _
    rw [hok]
    rfl

end MPoL
